import Mathlib

/-!
Verification of the tor-go client against its specification.

Bytes are modelled as natural numbers (values < 256 on the wire), byte
strings as `List Nat`.  External cryptographic primitives (X25519, HMAC,
HKDF, SHA-1, SHA3) are parameters of the embedded functions: the code
under verification only moves their outputs around, so each theorem is
stated for every choice of primitive, and witnesses instantiate them with
small computable stand-ins.
-/

namespace TorGo

/-- Big-endian 16-bit encoding, as produced by binary.BigEndian.PutUint16. -/
def u16be (n : Nat) : List Nat := [n / 256 % 256, n % 256]

/-- Big-endian 32-bit encoding, as produced by binary.BigEndian.PutUint32. -/
def u32be (n : Nat) : List Nat :=
  [n / 16777216 % 256, n / 65536 % 256, n / 256 % 256, n % 256]

/-- Big-endian 64-bit encoding, as produced by binary.BigEndian.PutUint64. -/
def u64be (n : Nat) : List Nat :=
  (List.range 8).map (fun i => n / 256 ^ (7 - i) % 256)

/-- ASCII bytes of a string constant. -/
def strBytes (s : String) : List Nat := s.data.map Char.toNat

/-- The all-zeros test from ntor.go / part_015 (`isZero` / `isAllZeros`):
OR-accumulate every byte and compare with zero. -/
def isZeroBytes (b : List Nat) : Bool := (b.foldl Nat.lor 0) == 0

namespace cell

/-- Command constant for VERSIONS cells (cell package). -/
def CmdVersions : Nat := 7

/-- Fixed cell length: 4 (circID) + 1 (cmd) + 509 (payload). -/
def FixedCellLen : Nat := 514

/-- Safety cap for variable-length cell payloads. -/
def MaxVarPayloadLen : Nat := 10000

/-- IsVariableLength returns true for VERSIONS (7) and commands >= 128. -/
def IsVariableLength (cmd : Nat) : Bool := cmd == CmdVersions || decide (128 ≤ cmd)

/-- io.ReadFull on a byte stream: take exactly `n` bytes or fail. -/
def readFull (n : Nat) (s : List Nat) : Except String (List Nat × List Nat) :=
  if n ≤ s.length then .ok (s.take n, s.drop n) else .error "short read"

/-- Reader.ReadCell: read a cell with 4-byte CircID (link protocol v4+).
Returns the cell bytes and the unread remainder of the stream. -/
def readCell (s : List Nat) : Except String (List Nat × List Nat) :=
  match readFull 5 s with
  | .error e => .error e
  | .ok (hdr, s1) =>
    let cmd := hdr.getD 4 0
    if IsVariableLength cmd then
      match readFull 2 s1 with
      | .error e => .error e
      | .ok (lenBuf, s2) =>
        let pLen := lenBuf.getD 0 0 * 256 + lenBuf.getD 1 0
        if MaxVarPayloadLen < pLen then
          .error "variable-length cell payload too large"
        else
          match readFull pLen s2 with
          | .error e => .error e
          | .ok (payload, s3) => .ok (hdr ++ lenBuf ++ payload, s3)
    else
      match readFull 509 s1 with
      | .error e => .error e
      | .ok (payload, s2) => .ok (hdr ++ payload, s2)

/-- Reader.ReadVersionsCell: read a VERSIONS cell, which uses a 2-byte
CircID.  The declared payload length is not bounded. -/
def readVersionsCell (s : List Nat) : Except String (List Nat × List Nat) :=
  match readFull 5 s with
  | .error e => .error e
  | .ok (hdr, s1) =>
    if hdr.getD 2 0 ≠ CmdVersions then
      .error "expected VERSIONS (7)"
    else
      let pLen := hdr.getD 3 0 * 256 + hdr.getD 4 0
      match readFull pLen s1 with
      | .error e => .error e
      | .ok (payload, s2) => .ok (hdr ++ payload, s2)

end cell

namespace stream

/-- Maximum data bytes in one RELAY_DATA cell (circuit.MaxRelayDataLen). -/
def MaxRelayDataLen : Nat := 498

/-- Send-side view of a Stream: the fields Stream.Write touches. -/
structure StreamSt where
  id : Nat
  circWindow : Int
  streamWindow : Int
  closed : Bool
deriving Repr, DecidableEq

/-- The chunking loop of Stream.Write.  `sendErr k` is the outcome of the
k-th Circuit.SendRelay call (none = success), modelling the link as an
external collaborator.  Returns (total bytes accepted, optional error) and
the final stream state. -/
def writeLoop (sendErr : Nat → Option String) (k total : Nat) (s : StreamSt)
    (p : List Nat) : (Nat × Option String) × StreamSt :=
  if h : p = [] then ((total, none), s)
  else if s.circWindow ≤ 0 ∨ s.streamWindow ≤ 0 then
    ((total, some ("send window exhausted (circ=" ++ toString s.circWindow ++
      ", stream=" ++ toString s.streamWindow ++ ")")), s)
  else
    let chunk := p.take MaxRelayDataLen
    match sendErr k with
    | some e => ((total, some ("send RELAY_DATA: " ++ e)), s)
    | none =>
      writeLoop sendErr (k + 1) (total + chunk.length)
        { s with circWindow := s.circWindow - 1, streamWindow := s.streamWindow - 1 }
        (p.drop MaxRelayDataLen)
termination_by p.length
decreasing_by
  simp only [List.length_drop, MaxRelayDataLen]
  have hp : 0 < p.length := List.length_pos.mpr h
  omega

/-- Stream.Write: fail if closed, otherwise run the chunking loop. -/
def streamWrite (sendErr : Nat → Option String) (s : StreamSt) (p : List Nat) :
    (Nat × Option String) × StreamSt :=
  if s.closed then ((0, some "stream closed"), s)
  else writeLoop sendErr 0 0 s p

/-- One call of the allocation loop in stream.Begin.  `counter` is the
value of the process-wide atomic uint32 nextStreamID before the call; the
result pairs the allocated id with the counter after the call.  The inner
loop gets explicit fuel (it can iterate only on raw = 0, i.e. after a
full uint32 wrap). -/
def beginAllocLoop : Nat → Nat → Except String (Nat × Nat)
  | 0, _ => .error "alloc loop fuel exhausted"
  | fuel + 1, counter =>
    let next := (counter + 1) % 4294967296
    let raw := (next + 4294967295) % 4294967296
    let id := raw % 65536
    if id ≠ 0 then .ok (id, next)
    else if 65535 < raw then .error "stream ID space exhausted"
    else beginAllocLoop fuel next

/-- Stream-id allocation as performed by stream.Begin (fuel 2 suffices:
the loop repeats only when raw = 0, and then raw = 1 on the next turn). -/
def beginAlloc (counter : Nat) : Except String (Nat × Nat) :=
  beginAllocLoop 2 counter

end stream

namespace onion

/-- The fields of directory.Consensus that GetSRVForClient reads. -/
structure SrvConsensus where
  validAfterHour : Nat
  srvCurrent : List Nat
  srvPrevious : List Nat
deriving Repr, DecidableEq

/-- GetSRVForClient from onion/hsdir.go: hour >= 12 uses the current SRV
(with no fallback), hour < 12 uses the previous SRV, falling back to the
current one. -/
def getSRVForClient (c : SrvConsensus) : Except String (List Nat) :=
  if 12 ≤ c.validAfterHour then
    if 0 < c.srvCurrent.length then .ok c.srvCurrent
    else .error "no current SRV in consensus"
  else if 0 < c.srvPrevious.length then .ok c.srvPrevious
  else if 0 < c.srvCurrent.length then .ok c.srvCurrent
  else .error "no SRV available in consensus"

end onion

namespace ntor

/-- Protocol id string of the ntor handshake. -/
def protoID : List Nat := TorGo.strBytes "ntor-curve25519-sha256-1"

/-- HMAC key t_key = PROTOID || ":key_extract". -/
def tKey : List Nat := protoID ++ TorGo.strBytes ":key_extract"

/-- HMAC key t_mac = PROTOID || ":mac". -/
def tMac : List Nat := protoID ++ TorGo.strBytes ":mac"

/-- HMAC key t_verify = PROTOID || ":verify". -/
def tVerify : List Nat := protoID ++ TorGo.strBytes ":verify"

/-- HKDF info m_expand = PROTOID || ":key_expand". -/
def mExpand : List Nat := protoID ++ TorGo.strBytes ":key_expand"

/-- Client ephemeral state of HandshakeState (ntor.go). -/
structure HandshakeState where
  nodeID : List Nat
  ntorKey : List Nat
  x : List Nat
  X : List Nat
deriving Repr, DecidableEq

/-- Derived circuit keys (ntor.KeyMaterial). -/
structure KeyMaterial where
  Df : List Nat
  Db : List Nat
  Kf : List Nat
  Kb : List Nat
deriving Repr, DecidableEq

/-- The secret_input of the handshake:
exp1 || exp2 || ID || B || X || Y || PROTOID. -/
def secretInput (exp1 exp2 : List Nat) (st : HandshakeState) (Y : List Nat) : List Nat :=
  exp1 ++ exp2 ++ st.nodeID ++ st.ntorKey ++ st.X ++ Y ++ protoID

/-- HandshakeState.Complete.  `dh s p` is curve25519.X25519(s, p),
`hmacF key msg` is HMAC-SHA256, and `hkdfF secret salt info n` reads n
bytes from HKDF-SHA256.  The second component of the result is the value
of hs.x after the call: the code zeroes it only on the success path. -/
def complete (dh : List Nat → List Nat → List Nat)
    (hmacF : List Nat → List Nat → List Nat)
    (hkdfF : List Nat → List Nat → List Nat → Nat → List Nat)
    (st : HandshakeState) (serverData : List Nat) :
    Except String KeyMaterial × List Nat :=
  let Y := serverData.take 32
  let authReceived := (serverData.drop 32).take 32
  let exp1 := dh st.x Y
  if TorGo.isZeroBytes exp1 then (.error "x*Y produced all-zeros point", st.x)
  else
    let exp2 := dh st.x st.ntorKey
    if TorGo.isZeroBytes exp2 then (.error "x*B produced all-zeros point", st.x)
    else
      let sec := secretInput exp1 exp2 st Y
      let verify := hmacF tVerify sec
      let authInput := verify ++ st.nodeID ++ st.ntorKey ++ Y ++ st.X ++
        protoID ++ TorGo.strBytes "Server"
      let expectedAuth := hmacF tMac authInput
      if expectedAuth ≠ authReceived then (.error "AUTH verification failed", st.x)
      else
        let keys := hkdfF sec tKey mExpand 92
        (.ok { Df := keys.take 20, Db := (keys.drop 20).take 20,
               Kf := (keys.drop 40).take 16, Kb := (keys.drop 56).take 16 },
         List.replicate st.x.length 0)

/-- Modelled from the spec (§4.3): the key-material layout the claim
describes — the first 72 bytes of HKDF-SHA256 over secret_input with
salt t_key and info m_expand, split as Df[20] Db[20] Kf[16] Kb[16]. -/
def specKeyMaterial (hkdfF : List Nat → List Nat → List Nat → Nat → List Nat)
    (sec : List Nat) : KeyMaterial :=
  let k := hkdfF sec tKey mExpand 72
  { Df := k.take 20, Db := (k.drop 20).take 20,
    Kf := (k.drop 40).take 16, Kb := (k.drop 56).take 16 }

end ntor

namespace hsntor

/-- Protocol id string of the hs-ntor handshake. -/
def hsProtoID : List Nat := TorGo.strBytes "tor-hs-ntor-curve25519-sha3-256-1"

/-- Tweak t_hsenc = PROTOID || ":hs_key_extract". -/
def tHsenc : List Nat := hsProtoID ++ TorGo.strBytes ":hs_key_extract"

/-- Tweak t_hsverify = PROTOID || ":hs_verify". -/
def tHsverify : List Nat := hsProtoID ++ TorGo.strBytes ":hs_verify"

/-- Tweak t_hsmac = PROTOID || ":hs_mac". -/
def tHsmac : List Nat := hsProtoID ++ TorGo.strBytes ":hs_mac"

/-- MAC(key, message) = SHA3-256(u64be(len key) || key || message), with
the SHA3 primitive abstracted as `sha3`. -/
def hsMAC (sha3 : List Nat → List Nat) (key message : List Nat) : List Nat :=
  sha3 (TorGo.u64be key.length ++ key ++ message)

/-- Client ephemeral state of an hs-ntor handshake (HsNtorClientState). -/
structure HsNtorClientState where
  X : List Nat
  x : List Nat
  B : List Nat
  authKey : List Nat
  subcred : List Nat
deriving Repr, DecidableEq

/-- HsNtorClientCompleteHandshake from part_015.  The second component of
the result is the value of state.x after the call: the loop that zeroes
it runs only after the AUTH check has succeeded. -/
def completeHandshake (dh : List Nat → List Nat → List Nat)
    (sha3 : List Nat → List Nat) (st : HsNtorClientState)
    (serverPK auth : List Nat) : Except String (List Nat) × List Nat :=
  let expYx := dh st.x serverPK
  if TorGo.isZeroBytes expYx then
    (.error "EXP(Y,x) produced all-zeros point", st.x)
  else
    let expBx := dh st.x st.B
    if TorGo.isZeroBytes expBx then
      (.error "EXP(B,x) produced all-zeros point", st.x)
    else
      let rendSecret := expYx ++ expBx ++ st.authKey ++ st.B ++ st.X ++
        serverPK ++ hsProtoID
      let ntorKeySeed := hsMAC sha3 rendSecret tHsenc
      let verify := hsMAC sha3 rendSecret tHsverify
      let authInput := verify ++ st.authKey ++ st.B ++ serverPK ++ st.X ++
        hsProtoID ++ TorGo.strBytes "Server"
      let expectedAuth := hsMAC sha3 authInput tHsmac
      if expectedAuth ≠ auth then
        (.error "hs-ntor AUTH verification failed", st.x)
      else
        (.ok ntorKeySeed, List.replicate st.x.length 0)

end hsntor

namespace circuit

/-- Relay cell payload length inside a fixed cell. -/
def RelayPayloadLen : Nat := 509

/-- Maximum data bytes in a single relay cell (509 - 11). -/
def MaxRelayDataLen : Nat := 498

/-- Maximum number of RELAY_EARLY cells per circuit. -/
def MaxRelayEarly : Nat := 8

/-- Relay command for EXTEND2. -/
def RelayExtend2 : Nat := 14

/-- State of one AES-CTR stream: the key (abstract) and the number of
keystream bytes consumed so far.  Each XORKeyStream call continues
exactly where the previous one ended. -/
structure CtrStream where
  key : Nat
  pos : Nat
deriving Repr, DecidableEq, Inhabited

/-- cipher.Stream.XORKeyStream under an abstract keystream function
`ks key i` (the i-th keystream byte for a key). -/
def ctrXor (ks : Nat → Nat → Nat) (s : CtrStream) (buf : List Nat) :
    List Nat × CtrStream :=
  (buf.mapIdx (fun i b => b ^^^ ks s.key (s.pos + i) % 256),
   { s with pos := s.pos + buf.length })

/-- A running hash (hash.Hash): the bytes fed since creation, the seed
included.  Sum is an abstract function of that history. -/
structure RunHash where
  fed : List Nat
deriving Repr, DecidableEq, Inhabited

/-- hash.Hash.Write: append to the running input. -/
def rhWrite (h : RunHash) (buf : List Nat) : RunHash := ⟨h.fed ++ buf⟩

/-- hash.Hash.Sum(nil) under an abstract hash function. -/
def rhSum (sha : List Nat → List Nat) (h : RunHash) : List Nat := sha h.fed

/-- One circuit hop: forward/backward cipher streams and digests. -/
structure Hop where
  kf : CtrStream
  kb : CtrStream
  df : RunHash
  db : RunHash
deriving Repr, DecidableEq, Inhabited

/-- Circuit state, with the cells written to the link recorded so that
frame conditions about "nothing was sent" can be stated. -/
structure CircuitSt where
  id : Nat
  hops : List Hop
  relayEarlySent : Nat
  written : List (List Nat)
deriving Repr, DecidableEq

/-- Replace the last element of a list. -/
def updateLast (f : α → α) : List α → List α
  | [] => []
  | [a] => [f a]
  | a :: b :: rest => a :: updateLast f (b :: rest)

/-- The onion-encryption loop: for i from n-1 down to 0, XOR the payload
with hop i's forward stream.  Returns the ciphertext and the hops with
their forward streams advanced. -/
def onionEncrypt (ks : Nat → Nat → Nat) : List Hop → List Nat → List Nat × List Hop
  | [], buf => (buf, [])
  | h :: rest, buf =>
    let (buf1, rest1) := onionEncrypt ks rest buf
    let (buf2, kf1) := ctrXor ks h.kf buf1
    (buf2, { h with kf := kf1 } :: rest1)

/-- The 509-byte relay plaintext before the digest is filled in:
command, recognized = 0, stream id, digest = 0, length, data, four zero
bytes, then random padding drawn from the tape `rnd`. -/
def relayPlaintext (rnd : Nat → Nat) (relayCmd streamID : Nat) (data : List Nat) :
    List Nat :=
  let padStart := 11 + data.length
  [relayCmd, 0, 0] ++ TorGo.u16be streamID ++ [0, 0, 0, 0] ++
    TorGo.u16be data.length ++ data ++
    List.replicate (min 4 (RelayPayloadLen - padStart)) 0 ++
    (if padStart + 4 < RelayPayloadLen then
      (List.range (RelayPayloadLen - (padStart + 4))).map rnd
     else [])

/-- Circuit.encryptRelayLocked: build the relay payload, extend the last
hop's forward digest, stamp the first 4 digest bytes, onion-encrypt from
the last hop to the first, and emit a RELAY cell.  Validation errors
leave the state untouched. -/
def encryptRelayLocked (ks : Nat → Nat → Nat) (sha : List Nat → List Nat)
    (rnd : Nat → Nat) (relayCmd streamID : Nat) (data : List Nat)
    (st : CircuitSt) : Except String (List Nat) × CircuitSt :=
  if st.hops = [] then (.error "circuit has no hops", st)
  else if MaxRelayDataLen < data.length then (.error "relay data too large", st)
  else
    let p0 := relayPlaintext rnd relayCmd streamID data
    let lastHop := st.hops.getLastD default
    let df1 := rhWrite lastHop.df p0
    let digest := (rhSum sha df1).take 4
    let p1 := p0.take 5 ++ digest ++ p0.drop 9
    let hops1 := updateLast (fun h => { h with df := df1 }) st.hops
    let (enc, hops2) := onionEncrypt ks hops1 p1
    let relayCell := TorGo.u32be st.id ++ [3] ++ enc
    (.ok relayCell, { st with hops := hops2 })

/-- Circuit.SendRelay: encrypt, then write the cell to the link.
`writeOk` is the outcome of the link write. -/
def sendRelay (ks : Nat → Nat → Nat) (sha : List Nat → List Nat)
    (rnd : Nat → Nat) (writeOk : Bool) (relayCmd streamID : Nat)
    (data : List Nat) (st : CircuitSt) : Except String Unit × CircuitSt :=
  match encryptRelayLocked ks sha rnd relayCmd streamID data st with
  | (.error e, st1) => (.error ("encrypt relay: " ++ e), st1)
  | (.ok relayCell, st1) =>
    if writeOk then (.ok (), { st1 with written := st1.written ++ [relayCell] })
    else (.error "write cell failed", st1)

/-- Circuit.SendRelayEarly: enforce the budget of 8, then wrap the given
payload in a RELAY_EARLY cell and write it. -/
def sendRelayEarly (writeOk : Bool) (payload : List Nat) (st : CircuitSt) :
    Except String Unit × CircuitSt :=
  if MaxRelayEarly ≤ st.relayEarlySent then
    (.error ("RELAY_EARLY budget exhausted (" ++ toString st.relayEarlySent ++ "/8)"), st)
  else
    let st1 := { st with relayEarlySent := st.relayEarlySent + 1 }
    let body := payload.take RelayPayloadLen
    let earlyCell := TorGo.u32be st.id ++ [9] ++ body ++
      List.replicate (RelayPayloadLen - body.length) 0
    if writeOk then (.ok (), { st1 with written := st1.written ++ [earlyCell] })
    else (.error "write cell failed", st1)

/-- The send half of Circuit.Extend (extend.go lines 49-66): encrypt the
EXTEND2 payload as a relay cell, then check the RELAY_EARLY budget, and
only then copy the encrypted payload into a RELAY_EARLY cell and write
it.  The budget check happens after the encryption has advanced the
forward cipher and digest state. -/
def extendSendLocked (ks : Nat → Nat → Nat) (sha : List Nat → List Nat)
    (rnd : Nat → Nat) (writeOk : Bool) (extend2Payload : List Nat)
    (st : CircuitSt) : Except String Unit × CircuitSt :=
  match encryptRelayLocked ks sha rnd RelayExtend2 0 extend2Payload st with
  | (.error e, st1) => (.error ("encrypt EXTEND2: " ++ e), st1)
  | (.ok relayCell, st1) =>
    if MaxRelayEarly ≤ st1.relayEarlySent then
      (.error ("RELAY_EARLY budget exhausted (" ++ toString st1.relayEarlySent ++ "/8)"), st1)
    else
      let st2 := { st1 with relayEarlySent := st1.relayEarlySent + 1 }
      let earlyCell := TorGo.u32be st.id ++ [9] ++ relayCell.drop 5
      if writeOk then (.ok (), { st2 with written := st2.written ++ [earlyCell] })
      else (.error "send EXTEND2: write cell failed", st2)

/-- The 509-byte buffer DecryptRelay copies the incoming payload into. -/
def padPayload (l : List Nat) : List Nat :=
  l.take RelayPayloadLen ++
    List.replicate (RelayPayloadLen - min RelayPayloadLen l.length) 0

/-- The hop loop of Circuit.decryptRelayLocked.  Each hop peels its
backward cipher layer; a hop with a zero "recognized" field zeroes the
digest field, snapshots its running backward digest, feeds the payload,
and accepts on a 4-byte digest match; on a mismatch the digest state is
restored from the snapshot and the search continues at the next hop. -/
def decryptLoop (ks : Nat → Nat → Nat) (sha : List Nat → List Nat) :
    List Hop → List Nat → Nat →
    Except String (Nat × Nat × Nat × List Nat) × List Hop
  | [], _, _ => (.error "relay cell not recognized at any hop", [])
  | hop :: rest, payload, i =>
    let p1 := (ctrXor ks hop.kb payload).1
    let kb1 := (ctrXor ks hop.kb payload).2
    let recognized := p1.getD 1 0 * 256 + p1.getD 2 0
    if recognized ≠ 0 then
      let r := decryptLoop ks sha rest p1 (i + 1)
      (r.1, { hop with kb := kb1 } :: r.2)
    else
      let savedDigest := (p1.drop 5).take 4
      let pz := p1.take 5 ++ [0, 0, 0, 0] ++ p1.drop 9
      let db1 := rhWrite hop.db pz
      let computed := (rhSum sha db1).take 4
      if savedDigest = computed then
        let relayCmd := pz.getD 0 0
        let streamID := pz.getD 3 0 * 256 + pz.getD 4 0
        let dataLen := pz.getD 9 0 * 256 + pz.getD 10 0
        if MaxRelayDataLen < dataLen then
          (.error "relay data length exceeds maximum",
           { hop with kb := kb1, db := db1 } :: rest)
        else
          (.ok (i, relayCmd, streamID, (pz.drop 11).take dataLen),
           { hop with kb := kb1, db := db1 } :: rest)
      else
        let r := decryptLoop ks sha rest pz (i + 1)
        (r.1, { hop with kb := kb1 } :: r.2)

/-- Circuit.decryptRelayLocked: copy the incoming payload and run the
hop loop front to back. -/
def decryptRelayLocked (ks : Nat → Nat → Nat) (sha : List Nat → List Nat)
    (incomingPayload : List Nat) (st : CircuitSt) :
    Except String (Nat × Nat × Nat × List Nat) × CircuitSt :=
  if st.hops = [] then (.error "circuit has no hops", st)
  else
    let r := decryptLoop ks sha st.hops (padPayload incomingPayload) 0
    (r.1, { st with hops := r.2 })

/-- Replay predicate: does some hop recognize the cell, i.e. show a zero
"recognized" field together with a matching 4-byte running backward
digest?  Mirrors the conditions of the hop loop without mutating. -/
def anyRecognizes (ks : Nat → Nat → Nat) (sha : List Nat → List Nat) :
    List Hop → List Nat → Bool
  | [], _ => false
  | hop :: rest, payload =>
    let p1 := (ctrXor ks hop.kb payload).1
    let recognized := p1.getD 1 0 * 256 + p1.getD 2 0
    if recognized ≠ 0 then anyRecognizes ks sha rest p1
    else
      let savedDigest := (p1.drop 5).take 4
      let pz := p1.take 5 ++ [0, 0, 0, 0] ++ p1.drop 9
      let computed := (rhSum sha (rhWrite hop.db pz)).take 4
      if savedDigest = computed then true else anyRecognizes ks sha rest pz

end circuit

namespace hsdir

/-- The consensus relay fields SelectHSDirs reads.  `rid` stands for the
relay's identity (pointer identity in the Go map of selected relays). -/
structure HRelay where
  rid : Nat
  flagHSDir : Bool
  flagRunning : Bool
  flagValid : Bool
  hasEd25519 : Bool
  ed25519ID : List Nat
deriving Repr, DecidableEq

/-- The eligibility filter of the hash ring: HSDir, Running, Valid flags
and an Ed25519 identity. -/
def eligible (r : HRelay) : Bool :=
  r.flagHSDir && r.flagRunning && r.flagValid && r.hasEd25519

/-- One hash-ring entry: computed index plus relay. -/
structure RingEntry where
  idx : List Nat
  rid : Nat
deriving Repr, DecidableEq, Inhabited

/-- bytes.Compare(a, b) < 0: lexicographic byte-string order. -/
def lexLt : List Nat → List Nat → Bool
  | [], [] => false
  | [], _ :: _ => true
  | _ :: _, [] => false
  | a :: as, b :: bs => if a < b then true else if b < a then false else lexLt as bs

/-- The inner pick loop of SelectHSDirs for one replica: walk the ring
from `start`, skipping already-selected relays, until 3 relays have been
picked or every ring relay is selected.  Runs on explicit fuel; `none`
means the fuel ran out. -/
def pickLoop (ring : List RingEntry) (start : Nat) :
    Nat → Nat → Nat → List Nat → List Nat → Option (List Nat × List Nat)
  | 0, _, _, _, _ => none
  | fuel + 1, offset, count, selected, result =>
    if 3 ≤ count then some (selected, result)
    else
      let pos := (start + offset) % ring.length
      let r := (ring.getD pos default).rid
      if selected.contains r then
        pickLoop ring start fuel (offset + 1) count selected result
      else
        let selected1 := selected ++ [r]
        let result1 := result ++ [r]
        if ring.length ≤ selected1.length then some (selected1, result1)
        else pickLoop ring start fuel (offset + 1) (count + 1) selected1 result1

/-- SelectHSDirs from onion/hsdir.go with the two SHA3 index functions
abstracted.  Both replica loops run on the given fuel; `none` means some
loop failed to finish within the fuel. -/
def selectHSDirs (relayIdxF : List Nat → List Nat) (svcIdxF : Nat → List Nat)
    (relays : List HRelay) (srv : List Nat) (fuel : Nat) :
    Option (Except String (List Nat)) :=
  if srv.length = 0 then some (.error "no shared random value available")
  else
    let ring0 := (relays.filter eligible).map
      (fun r => RingEntry.mk (relayIdxF r.ed25519ID) r.rid)
    if ring0 = [] then some (.error "no HSDir relays in consensus")
    else
      let ring := ring0.mergeSort (fun a b => !lexLt b.idx a.idx)
      let start1 := ring.findIdx (fun e => !lexLt e.idx (svcIdxF 1))
      match pickLoop ring start1 fuel 0 0 [] [] with
      | none => none
      | some (sel1, res1) =>
        let start2 := ring.findIdx (fun e => !lexLt e.idx (svcIdxF 2))
        match pickLoop ring start2 fuel 0 0 sel1 res1 with
        | none => none
        | some (_, res2) =>
          if res2 = [] then some (.error "no HSDirs selected") else some (.ok res2)

end hsdir

/-! Theorems for the individual claims. -/

/-- Reading exactly the first part of a split stream succeeds. -/
theorem readFull_exact (a b : List Nat) :
    cell.readFull a.length (a ++ b) = .ok (a, b) := by
  simp [cell.readFull, List.take_left, List.drop_left]

/-- A byte stream of length 5 + 10001 declaring a 10001-byte VERSIONS
payload: the versions reader accepts it although 10001 > 10000. -/
def versionsOversizedStream : List Nat := [0, 0, 7, 39, 17] ++ List.replicate 10001 0

/-- C5 counterexample: ReadVersionsCell returns a cell whose declared
payload length is 10001 > 10 000 instead of failing — command 7 is
variable-length, so the claim's bound does not hold for this reader. -/
theorem readVersionsCell_accepts_oversized :
    cell.readVersionsCell versionsOversizedStream = .ok (versionsOversizedStream, []) ∧
    10000 < versionsOversizedStream.getD 3 0 * 256 + versionsOversizedStream.getD 4 0 := by
  constructor
  · have h5 : cell.readFull 5 versionsOversizedStream =
        .ok ([0, 0, 7, 39, 17], List.replicate 10001 0) :=
      readFull_exact [0, 0, 7, 39, 17] (List.replicate 10001 0)
    have hp : cell.readFull 10001 (List.replicate 10001 0) =
        .ok (List.replicate 10001 0, ([] : List Nat)) := by
      have h := readFull_exact (List.replicate 10001 0) []
      rw [List.length_replicate, List.append_nil] at h
      exact h
    rw [cell.readVersionsCell, h5]
    dsimp only
    rw [if_neg (by decide :
      ¬(([0, 0, 7, 39, 17] : List Nat).getD 2 0 ≠ cell.CmdVersions))]
    rw [show ([0, 0, 7, 39, 17] : List Nat).getD 3 0 * 256 +
        ([0, 0, 7, 39, 17] : List Nat).getD 4 0 = 10001 from by decide]
    rw [hp]
    rfl
  · decide

/-- C5 (amended): the 4-byte-circuit-id reader ReadCell fails with the
oversized-payload error whenever a variable-length command declares a
payload longer than 10 000 bytes, while ReadVersionsCell applies no such
bound: it succeeds whenever the stream holds the declared payload. -/
theorem readCell_bound_applies_only_to_readCell (s t : List Nat) :
    (cell.IsVariableLength (s.getD 4 0) = true → 7 ≤ s.length →
        10000 < s.getD 5 0 * 256 + s.getD 6 0 →
        cell.readCell s = .error "variable-length cell payload too large") ∧
    (t.getD 2 0 = 7 → 5 + (t.getD 3 0 * 256 + t.getD 4 0) ≤ t.length →
        (cell.readVersionsCell t).isOk = true) := by
  constructor
  · intro hv hlen hbig
    have h5 : cell.readFull 5 s = .ok (s.take 5, s.drop 5) := by
      unfold cell.readFull
      rw [if_pos (by omega : 5 ≤ s.length)]
    have hhdr : (s.take 5).getD 4 0 = s.getD 4 0 := by
      rw [List.getD_eq_getElem?_getD, List.getD_eq_getElem?_getD,
        List.getElem?_take_of_lt (by omega)]
    have h2 : cell.readFull 2 (s.drop 5) = .ok ((s.drop 5).take 2, (s.drop 5).drop 2) := by
      unfold cell.readFull
      rw [if_pos (by simp only [List.length_drop]; omega : 2 ≤ (s.drop 5).length)]
    have hb0 : ((s.drop 5).take 2).getD 0 0 = s.getD 5 0 := by
      rw [List.getD_eq_getElem?_getD, List.getD_eq_getElem?_getD,
        List.getElem?_take_of_lt (by omega), List.getElem?_drop]
    have hb1 : ((s.drop 5).take 2).getD 1 0 = s.getD 6 0 := by
      rw [List.getD_eq_getElem?_getD, List.getD_eq_getElem?_getD,
        List.getElem?_take_of_lt (by omega), List.getElem?_drop]
    rw [cell.readCell, h5]
    simp only [hhdr, hv, if_true, h2, hb0, hb1]
    rw [if_pos (by simpa [cell.MaxVarPayloadLen] using hbig)]
  · intro h7 hfits
    have h5 : cell.readFull 5 t = .ok (t.take 5, t.drop 5) := by
      unfold cell.readFull
      rw [if_pos (by omega : 5 ≤ t.length)]
    have hh2 : (t.take 5).getD 2 0 = t.getD 2 0 := by
      rw [List.getD_eq_getElem?_getD, List.getD_eq_getElem?_getD,
        List.getElem?_take_of_lt (by omega)]
    have hh3 : (t.take 5).getD 3 0 = t.getD 3 0 := by
      rw [List.getD_eq_getElem?_getD, List.getD_eq_getElem?_getD,
        List.getElem?_take_of_lt (by omega)]
    have hh4 : (t.take 5).getD 4 0 = t.getD 4 0 := by
      rw [List.getD_eq_getElem?_getD, List.getD_eq_getElem?_getD,
        List.getElem?_take_of_lt (by omega)]
    have hp : cell.readFull (t.getD 3 0 * 256 + t.getD 4 0) (t.drop 5) =
        .ok ((t.drop 5).take (t.getD 3 0 * 256 + t.getD 4 0),
             (t.drop 5).drop (t.getD 3 0 * 256 + t.getD 4 0)) := by
      unfold cell.readFull
      rw [if_pos (by simp only [List.length_drop]; omega :
        t.getD 3 0 * 256 + t.getD 4 0 ≤ (t.drop 5).length)]
    rw [cell.readVersionsCell, h5]
    simp only [hh2, hh3, hh4, h7, cell.CmdVersions, ne_eq, not_true_eq_false,
      if_false, hp]
    rfl

/-- C5 witness: the amended bound evaluated on a concrete oversized
variable-length stream (command 128) and a small VERSIONS stream. -/
theorem readCell_bound_witness :
    cell.readCell [0, 0, 0, 0, 128, 39, 17] =
      .error "variable-length cell payload too large" ∧
    (cell.readVersionsCell [0, 0, 7, 0, 1, 9]).isOk = true := by
  have h := readCell_bound_applies_only_to_readCell
    [0, 0, 0, 0, 128, 39, 17] [0, 0, 7, 0, 1, 9]
  exact ⟨h.1 (by decide) (by decide) (by decide), h.2 (by decide) (by decide)⟩

/-- C1: with the circuit-level send window at 0 (stream window 500, all
sends succeeding), Stream.Write of one byte returns the transient
window-exhausted error instead of blocking until a SENDME: the write
accepts 0 bytes, errors, and leaves the windows untouched. -/
theorem write_window_exhausted_returns_error :
    stream.streamWrite (fun _ => none)
      { id := 1, circWindow := 0, streamWindow := 500, closed := false } [42] =
    ((0, some "send window exhausted (circ=0, stream=500)"),
     { id := 1, circWindow := 0, streamWindow := 500, closed := false }) := by
  rw [stream.streamWrite, stream.writeLoop]
  norm_num
  rfl

/-- C4: the global-counter stream-id allocator issues id 1 for counter 1,
fails with the id-space-exhausted error at counter 65536 (unconditionally,
with no free-slot check), and at counter 65537 issues id 1 again — so a
65537th allocation reuses the id of the still-live first stream. -/
theorem beginAlloc_wraps_and_reuses_ids :
    stream.beginAlloc 1 = .ok (1, 2) ∧
    stream.beginAlloc 65536 = .error "stream ID space exhausted" ∧
    stream.beginAlloc 65537 = .ok (1, 65538) := by
  refine ⟨?_, ?_, ?_⟩ <;> rfl

/-- C6 counterexample: a consensus whose valid-after hour is 13 with no
current SRV but an available previous SRV makes GetSRVForClient fail,
refuting "fails exactly when neither value is available". -/
theorem getSRV_fails_with_previous_available :
    onion.getSRVForClient ⟨13, [], [7]⟩ = .error "no current SRV in consensus" ∧
    ([7] : List Nat) ≠ [] := by
  exact ⟨rfl, by decide⟩

/-- C6 (amended): with hour >= 12 the current SRV is returned when
available and selection fails otherwise, even when the previous SRV is
available; with hour < 12 the previous SRV is returned when available,
falling back to the current SRV, and selection fails only when both are
missing. -/
theorem getSRV_selection (c : onion.SrvConsensus) :
    (12 ≤ c.validAfterHour → c.srvCurrent ≠ [] →
        onion.getSRVForClient c = .ok c.srvCurrent) ∧
    (12 ≤ c.validAfterHour → c.srvCurrent = [] →
        onion.getSRVForClient c = .error "no current SRV in consensus") ∧
    (c.validAfterHour < 12 → c.srvPrevious ≠ [] →
        onion.getSRVForClient c = .ok c.srvPrevious) ∧
    (c.validAfterHour < 12 → c.srvPrevious = [] → c.srvCurrent ≠ [] →
        onion.getSRVForClient c = .ok c.srvCurrent) ∧
    (c.validAfterHour < 12 → c.srvPrevious = [] → c.srvCurrent = [] →
        onion.getSRVForClient c = .error "no SRV available in consensus") := by
  unfold onion.getSRVForClient
  refine ⟨?_, ?_, ?_, ?_, ?_⟩ <;> intros <;>
    simp_all [List.length_pos, List.isEmpty_iff]

/-- C6 witness: the amended selection rule evaluated on concrete
consensuses for the hour >= 12 branch. -/
theorem getSRV_selection_witness :
    onion.getSRVForClient ⟨14, [5], []⟩ = .ok [5] :=
  (getSRV_selection ⟨14, [5], []⟩).1 (by norm_num) (by decide)

/-- C3: ntor Complete fails exactly on an all-zero x·Y or x·B or on an
AUTH mismatch, and otherwise returns the key material given by the first
72 bytes of HKDF-SHA256 over secret_input with salt t_key and info
m_expand, split as Df[20] Db[20] Kf[16] Kb[16].  The hypothesis `hkdfpre`
states that the abstract KDF is an expandable stream (reading 72 bytes
yields a prefix of reading 92), which HKDF-SHA256 satisfies. -/
theorem ntor_complete_spec (dh : List Nat → List Nat → List Nat)
    (hmacF : List Nat → List Nat → List Nat)
    (hkdfF : List Nat → List Nat → List Nat → Nat → List Nat)
    (st : ntor.HandshakeState) (serverData : List Nat)
    (hkdfpre : ∀ sec, hkdfF sec ntor.tKey ntor.mExpand 72 =
        (hkdfF sec ntor.tKey ntor.mExpand 92).take 72) :
    (TorGo.isZeroBytes (dh st.x (serverData.take 32)) = true →
        (ntor.complete dh hmacF hkdfF st serverData).1 =
          .error "x*Y produced all-zeros point") ∧
    (TorGo.isZeroBytes (dh st.x (serverData.take 32)) = false →
      TorGo.isZeroBytes (dh st.x st.ntorKey) = true →
        (ntor.complete dh hmacF hkdfF st serverData).1 =
          .error "x*B produced all-zeros point") ∧
    (∀ sec, TorGo.isZeroBytes (dh st.x (serverData.take 32)) = false →
      TorGo.isZeroBytes (dh st.x st.ntorKey) = false →
      sec = ntor.secretInput (dh st.x (serverData.take 32)) (dh st.x st.ntorKey)
        st (serverData.take 32) →
      (hmacF ntor.tMac (hmacF ntor.tVerify sec ++ st.nodeID ++ st.ntorKey ++
          serverData.take 32 ++ st.X ++ ntor.protoID ++ TorGo.strBytes "Server") ≠
        (serverData.drop 32).take 32 →
        (ntor.complete dh hmacF hkdfF st serverData).1 =
          .error "AUTH verification failed") ∧
      (hmacF ntor.tMac (hmacF ntor.tVerify sec ++ st.nodeID ++ st.ntorKey ++
          serverData.take 32 ++ st.X ++ ntor.protoID ++ TorGo.strBytes "Server") =
        (serverData.drop 32).take 32 →
        (ntor.complete dh hmacF hkdfF st serverData).1 =
          .ok (ntor.specKeyMaterial hkdfF sec))) := by
  refine ⟨fun hz1 => ?_, fun hz1 hz2 => ?_, fun sec hz1 hz2 hsec => ⟨fun hne => ?_, fun heq => ?_⟩⟩
  · rw [ntor.complete, if_pos hz1]
  · rw [ntor.complete, if_neg (by simp [hz1]), if_pos hz2]
  · rw [ntor.complete, if_neg (by simp [hz1]), if_neg (by simp [hz2])]
    rw [if_pos (by rw [hsec] at hne; exact hne)]
  · rw [ntor.complete, if_neg (by simp [hz1]), if_neg (by simp [hz2])]
    rw [if_neg (by rw [hsec] at heq; simpa using heq)]
    subst hsec
    rw [ntor.specKeyMaterial, hkdfpre]
    simp only [List.drop_take, List.take_take]
    norm_num

/-- C3 witness: the refinement evaluated with concrete stand-in
primitives on a 64-byte server response whose AUTH matches. -/
theorem ntor_complete_spec_witness :
    (ntor.complete (fun _ _ => List.replicate 32 1) (fun _ _ => List.replicate 32 2)
      (fun _ _ _ n => List.range n)
      { nodeID := List.replicate 20 3, ntorKey := List.replicate 32 4,
        x := List.replicate 32 5, X := List.replicate 32 6 }
      (List.replicate 32 7 ++ List.replicate 32 2)).1 =
    .ok (ntor.specKeyMaterial (fun _ _ _ n => List.range n)
      (ntor.secretInput (List.replicate 32 1) (List.replicate 32 1)
        { nodeID := List.replicate 20 3, ntorKey := List.replicate 32 4,
          x := List.replicate 32 5, X := List.replicate 32 6 }
        ((List.replicate 32 7 ++ List.replicate 32 2).take 32))) := by
  have h := ntor_complete_spec (fun _ _ => List.replicate 32 1)
    (fun _ _ => List.replicate 32 2) (fun _ _ _ n => List.range n)
    { nodeID := List.replicate 20 3, ntorKey := List.replicate 32 4,
      x := List.replicate 32 5, X := List.replicate 32 6 }
    (List.replicate 32 7 ++ List.replicate 32 2)
    (by intro sec; norm_num [List.take_range])
  exact (h.2.2 _ (by decide) (by decide) rfl).2 (by decide)

/-- C8: hs-ntor completion with an AUTH value that fails verification
returns with the ephemeral secret scalar x unchanged (and non-zero): the
zeroing loop runs only after the AUTH check, so verification failure is a
completion path on which x is not zeroed. -/
theorem hsntor_auth_failure_leaves_x_unzeroed :
    hsntor.completeHandshake (fun _ _ => List.replicate 32 1)
      (fun _ => List.replicate 32 3)
      { X := List.replicate 32 4, x := List.replicate 32 9,
        B := List.replicate 32 5, authKey := List.replicate 32 6,
        subcred := List.replicate 32 7 }
      (List.replicate 32 8) (List.replicate 32 0) =
      (.error "hs-ntor AUTH verification failed", List.replicate 32 9) ∧
    (List.replicate 32 9 : List Nat) ≠ List.replicate 32 0 := by
  exact ⟨rfl, by decide⟩

/-- A replica scan over a one-entry ring whose entry is already selected
makes no progress: the skip-selected branch consumes fuel forever and the
ring-exhausted break is reachable only after a fresh selection. -/
theorem pickLoop_stuck (e : hsdir.RingEntry) (start : Nat) (res : List Nat) :
    ∀ fuel offset, hsdir.pickLoop [e] start fuel offset 0 [e.rid] res = none := by
  intro fuel
  induction fuel with
  | zero => intro offset; rfl
  | succ f ih =>
    intro offset
    rw [hsdir.pickLoop]
    rw [if_neg (by omega : ¬ 3 ≤ 0)]
    have hmod : (start + offset) % 1 = 0 := Nat.mod_one _
    simp [hmod, ih (offset + 1)]

/-- The first replica scan over a one-entry ring selects that entry and
stops via the ring-exhausted break. -/
theorem pickLoop_singleton_selects (e : hsdir.RingEntry) (start : Nat) (f : Nat) :
    hsdir.pickLoop [e] start (f + 1) 0 0 [] [] = some ([e.rid], [e.rid]) := by
  rw [hsdir.pickLoop]
  rw [if_neg (by omega : ¬ 3 ≤ 0)]
  simp [Nat.mod_one]

/-- C7: on a consensus holding exactly one relay with the HSDir, Running
and Valid flags and an Ed25519 identity, SelectHSDirs never terminates:
replica 1 selects the only ring relay, and replica 2 then scans the ring
skipping it forever — no amount of fuel makes the loop finish. -/
theorem selectHSDirs_diverges_on_singleton (fuel : Nat) :
    hsdir.selectHSDirs (fun _ => [0]) (fun _ => [0])
      [{ rid := 7, flagHSDir := true, flagRunning := true, flagValid := true,
         hasEd25519 := true, ed25519ID := [3] }] [1] fuel = none := by
  cases fuel with
  | zero => rfl
  | succ f =>
    unfold hsdir.selectHSDirs
    rw [if_neg (by decide)]
    norm_num [hsdir.eligible, List.mergeSort_singleton]
    generalize List.findIdx (fun e => !hsdir.lexLt e.idx [0])
      [(⟨[0], 7⟩ : hsdir.RingEntry)] = start
    rw [pickLoop_singleton_selects (⟨[0], 7⟩ : hsdir.RingEntry) start f]
    dsimp only
    rw [pickLoop_stuck (⟨[0], 7⟩ : hsdir.RingEntry) start [7] (f + 1) 0]

/-- The only failures of encryptRelayLocked are its two validation
checks: no hops, or data longer than 498 bytes. -/
theorem encryptRelayLocked_error_cases (ks : Nat → Nat → Nat)
    (sha : List Nat → List Nat) (rnd : Nat → Nat) (cmd sid : Nat)
    (data : List Nat) (st : circuit.CircuitSt) (e : String)
    (he : (circuit.encryptRelayLocked ks sha rnd cmd sid data st).1 = .error e) :
    st.hops = [] ∨ circuit.MaxRelayDataLen < data.length := by
  unfold circuit.encryptRelayLocked at he
  split_ifs at he with h1 h2
  · exact Or.inl h1
  · exact Or.inr h2

/-- Validation errors of encryptRelayLocked do not touch the circuit:
both failing branches return before any cipher or digest mutation. -/
theorem encryptRelayLocked_preserves_counters (ks : Nat → Nat → Nat)
    (sha : List Nat → List Nat) (rnd : Nat → Nat) (cmd sid : Nat)
    (data : List Nat) (st : circuit.CircuitSt) :
    (circuit.encryptRelayLocked ks sha rnd cmd sid data st).2.relayEarlySent =
      st.relayEarlySent ∧
    (circuit.encryptRelayLocked ks sha rnd cmd sid data st).2.written =
      st.written := by
  unfold circuit.encryptRelayLocked
  split_ifs <;> simp

/-- C9: both RELAY_EARLY senders (Circuit.SendRelayEarly and the EXTEND2
send inside Circuit.Extend) send only while the per-circuit counter is
below 8 and increment it by one per send, the counter never exceeds 8,
and with the counter at 8 each sender fails instead of sending. -/
theorem relay_early_budget (ks : Nat → Nat → Nat) (sha : List Nat → List Nat)
    (rnd : Nat → Nat) (writeOk : Bool) (payload epayload : List Nat)
    (st : circuit.CircuitSt) :
    ((circuit.sendRelayEarly writeOk payload st).1 = .ok () →
        st.relayEarlySent < 8 ∧
        (circuit.sendRelayEarly writeOk payload st).2.relayEarlySent =
          st.relayEarlySent + 1) ∧
    (st.relayEarlySent ≤ 8 →
        (circuit.sendRelayEarly writeOk payload st).2.relayEarlySent ≤ 8) ∧
    (st.relayEarlySent = 8 →
        (circuit.sendRelayEarly writeOk payload st).1 =
          .error "RELAY_EARLY budget exhausted (8/8)") ∧
    ((circuit.extendSendLocked ks sha rnd writeOk epayload st).1 = .ok () →
        st.relayEarlySent < 8 ∧
        (circuit.extendSendLocked ks sha rnd writeOk epayload st).2.relayEarlySent =
          st.relayEarlySent + 1) ∧
    (st.relayEarlySent ≤ 8 →
        (circuit.extendSendLocked ks sha rnd writeOk epayload st).2.relayEarlySent ≤ 8) ∧
    (st.relayEarlySent = 8 → st.hops ≠ [] → epayload.length ≤ 498 →
        (circuit.extendSendLocked ks sha rnd writeOk epayload st).1 =
          .error "RELAY_EARLY budget exhausted (8/8)") := by
  have hpre := encryptRelayLocked_preserves_counters ks sha rnd
    circuit.RelayExtend2 0 epayload st
  rcases hE : circuit.encryptRelayLocked ks sha rnd circuit.RelayExtend2 0 epayload st
    with ⟨res, st1⟩
  rw [hE] at hpre
  have hst1 : st1.relayEarlySent = st.relayEarlySent := hpre.1
  refine ⟨?_, ?_, ?_, ?_, ?_, ?_⟩
  · intro hok
    by_cases hb : circuit.MaxRelayEarly ≤ st.relayEarlySent
    · simp [circuit.sendRelayEarly, hb] at hok
    · cases writeOk
      · simp [circuit.sendRelayEarly, hb] at hok
      · constructor
        · simp only [circuit.MaxRelayEarly] at hb
          omega
        · simp [circuit.sendRelayEarly, hb]
  · intro hle
    by_cases hb : circuit.MaxRelayEarly ≤ st.relayEarlySent
    · simpa [circuit.sendRelayEarly, hb] using hle
    · simp only [circuit.MaxRelayEarly] at hb
      cases writeOk <;> simp [circuit.sendRelayEarly, circuit.MaxRelayEarly, hb] <;> omega
  · intro h8
    have hb : circuit.MaxRelayEarly ≤ st.relayEarlySent := by
      simp [circuit.MaxRelayEarly, h8]
    simp only [circuit.sendRelayEarly, if_pos hb, h8]
    rfl
  · intro hok
    unfold circuit.extendSendLocked at hok ⊢
    rw [hE] at hok ⊢
    cases res with
    | error e => simp at hok
    | ok c =>
      dsimp only at hok ⊢
      by_cases hb : circuit.MaxRelayEarly ≤ st1.relayEarlySent
      · rw [if_pos hb] at hok
        simp at hok
      · rw [if_neg hb] at hok ⊢
        cases writeOk
        · simp at hok
        · constructor
          · rw [hst1] at hb
            simp only [circuit.MaxRelayEarly] at hb
            omega
          · simp [hst1]
  · intro hle
    unfold circuit.extendSendLocked
    rw [hE]
    cases res with
    | error e => simpa [hst1] using hle
    | ok c =>
      dsimp only
      by_cases hb : circuit.MaxRelayEarly ≤ st1.relayEarlySent
      · rw [if_pos hb]
        simpa [hst1] using hle
      · rw [if_neg hb]
        rw [hst1] at hb
        simp only [circuit.MaxRelayEarly] at hb
        cases writeOk <;> simp [hst1] <;> omega
  · intro h8 hnh hlen
    unfold circuit.extendSendLocked
    rw [hE]
    cases res with
    | error e =>
      rcases encryptRelayLocked_error_cases ks sha rnd circuit.RelayExtend2 0
          epayload st e (by rw [hE]) with hcase | hcase
      · exact absurd hcase hnh
      · simp only [circuit.MaxRelayDataLen] at hcase
        omega
    | ok c =>
      dsimp only
      have hb : circuit.MaxRelayEarly ≤ st1.relayEarlySent := by
        rw [hst1, h8]
        norm_num [circuit.MaxRelayEarly]
      rw [if_pos hb, hst1, h8]
      rfl

/-- The circuit state every RELAY_EARLY sender rejects: the budget
counter already stands at 8 on a one-hop circuit. -/
def budgetCircuit8 : circuit.CircuitSt :=
  { id := 2147483649,
    hops := [{ kf := ⟨0, 0⟩, kb := ⟨1, 0⟩, df := ⟨[]⟩, db := ⟨[]⟩ }],
    relayEarlySent := 8, written := [] }

/-- C9 witness: the ninth RELAY_EARLY attempt on a circuit (counter at 8)
fails with the budget-exhausted error for both senders. -/
theorem relay_early_budget_witness :
    (circuit.sendRelayEarly true [] budgetCircuit8).1 =
      .error "RELAY_EARLY budget exhausted (8/8)" ∧
    (circuit.extendSendLocked (fun _ _ => 0) (fun _ => [0, 0, 0, 0]) (fun _ => 0)
        true [] budgetCircuit8).1 = .error "RELAY_EARLY budget exhausted (8/8)" := by
  have h := relay_early_budget (fun _ _ => 0) (fun _ => [0, 0, 0, 0]) (fun _ => 0)
    true [] [] budgetCircuit8
  exact ⟨h.2.2.1 rfl, h.2.2.2.2.2 rfl (by simp [budgetCircuit8]) (by decide)⟩

/-- C10 (amended): when the encryption step itself reports an error (the
circuit has no hops, or the relay data exceeds 498 bytes), the circuit
state — every hop's forward cipher stream and digest, the counters and
the written-cell log — is exactly as before the call, for EncryptRelay,
SendRelay and the EXTEND2 send alike.  (The budget-exhausted error of
Extend, in contrast, is raised only after encryption; see the
counterexample.) -/
theorem encrypt_error_leaves_state (ks : Nat → Nat → Nat)
    (sha : List Nat → List Nat) (rnd : Nat → Nat) (writeOk : Bool)
    (cmd sid : Nat) (data epayload : List Nat) (st : circuit.CircuitSt) :
    (∀ e, (circuit.encryptRelayLocked ks sha rnd cmd sid data st).1 = .error e →
        (circuit.encryptRelayLocked ks sha rnd cmd sid data st).2 = st ∧
        (circuit.sendRelay ks sha rnd writeOk cmd sid data st).2 = st) ∧
    (∀ e, (circuit.encryptRelayLocked ks sha rnd circuit.RelayExtend2 0 epayload st).1 =
          .error e →
        (circuit.extendSendLocked ks sha rnd writeOk epayload st).2 = st) := by
  constructor
  · intro e he
    have hstate : (circuit.encryptRelayLocked ks sha rnd cmd sid data st).2 = st := by
      unfold circuit.encryptRelayLocked at he ⊢
      split_ifs at he ⊢ <;> simp_all
    refine ⟨hstate, ?_⟩
    unfold circuit.sendRelay
    rcases hE : circuit.encryptRelayLocked ks sha rnd cmd sid data st with ⟨res, st1⟩
    rw [hE] at he hstate
    cases res with
    | error e2 => exact hstate
    | ok c => simp at he
  · intro e he
    have hstate :
        (circuit.encryptRelayLocked ks sha rnd circuit.RelayExtend2 0 epayload st).2 = st := by
      unfold circuit.encryptRelayLocked at he ⊢
      split_ifs at he ⊢ <;> simp_all
    unfold circuit.extendSendLocked
    rcases hE : circuit.encryptRelayLocked ks sha rnd circuit.RelayExtend2 0 epayload st
      with ⟨res, st1⟩
    rw [hE] at he hstate
    cases res with
    | error e2 => exact hstate
    | ok c => simp at he

/-- C10 witness: the no-hops validation error of the encryption step
leaves a hopless circuit untouched through SendRelay. -/
theorem encrypt_error_leaves_state_witness :
    (circuit.sendRelay (fun _ _ => 0) (fun _ => [0, 0, 0, 0]) (fun _ => 0)
      true 2 1 [5] { id := 3, hops := [], relayEarlySent := 0, written := [] }).2 =
    { id := 3, hops := [], relayEarlySent := 0, written := [] } := by
  have h := encrypt_error_leaves_state (fun _ _ => 0) (fun _ => [0, 0, 0, 0])
    (fun _ => 0) true 2 1 [5] []
    { id := 3, hops := [], relayEarlySent := 0, written := [] }
  have henc : (circuit.encryptRelayLocked (fun _ _ => 0) (fun _ => [0, 0, 0, 0])
      (fun _ => 0) 2 1 [5]
      { id := 3, hops := [], relayEarlySent := 0, written := [] }).1 =
      .error "circuit has no hops" := by
    unfold circuit.encryptRelayLocked
    rw [if_pos rfl]
  exact (h.1 "circuit has no hops" henc).2

/-- C10 counterexample: with the RELAY_EARLY counter at 8, the EXTEND2
send fails and writes nothing to the link, yet the hop's forward cipher
stream has advanced by 509 keystream bytes (and its forward digest has
absorbed the cell) — a failed send that desynchronizes the circuit. -/
theorem extend_budget_error_advances_cipher :
    (circuit.extendSendLocked (fun _ _ => 0) (fun _ => [0, 0, 0, 0]) (fun _ => 0)
        true [] budgetCircuit8).1 = .error "RELAY_EARLY budget exhausted (8/8)" ∧
    (circuit.extendSendLocked (fun _ _ => 0) (fun _ => [0, 0, 0, 0]) (fun _ => 0)
        true [] budgetCircuit8).2.written = budgetCircuit8.written ∧
    ((circuit.extendSendLocked (fun _ _ => 0) (fun _ => [0, 0, 0, 0]) (fun _ => 0)
        true [] budgetCircuit8).2.hops.getD 0 default).kf.pos = 509 ∧
    (budgetCircuit8.hops.getD 0 default).kf.pos = 0 := by
  set_option maxRecDepth 4000 in
  refine ⟨rfl, rfl, rfl, rfl⟩

/-- Invariants of the decryptRelayLocked hop loop, by induction on the
hop list: (1) if no hop recognizes the cell the loop fails with the
unrecognized error; (2) on that failure every hop's backward digest is as
before (each coincidental zero "recognized" is undone by the restore);
(3) on success only the recognizing hop's backward digest changed. -/
theorem decryptLoop_spec (ks : Nat → Nat → Nat) (sha : List Nat → List Nat) :
    ∀ (hops : List circuit.Hop) (p : List Nat) (i : Nat),
    (circuit.anyRecognizes ks sha hops p = false →
       (circuit.decryptLoop ks sha hops p i).1 =
         .error "relay cell not recognized at any hop") ∧
    ((circuit.decryptLoop ks sha hops p i).1 =
         .error "relay cell not recognized at any hop" →
       (circuit.decryptLoop ks sha hops p i).2.map circuit.Hop.db =
         hops.map circuit.Hop.db) ∧
    (∀ idx c sid d, (circuit.decryptLoop ks sha hops p i).1 = .ok (idx, c, sid, d) →
       ∀ j, i + j ≠ idx →
         ((circuit.decryptLoop ks sha hops p i).2.getD j default).db =
           (hops.getD j default).db) := by
  intro hops
  induction hops with
  | nil =>
    intro p i
    refine ⟨fun _ => rfl, fun _ => rfl, ?_⟩
    intro idx c sid d h
    simp [circuit.decryptLoop] at h
  | cons hop rest ih =>
    intro p i
    simp only [circuit.decryptLoop, circuit.anyRecognizes]
    split_ifs with h1 h2 h3
    · obtain ⟨ihs1, ihs2, ihs3⟩ := ih ((circuit.ctrXor ks hop.kb p).1) (i + 1)
      refine ⟨fun hany => ihs1 hany, fun herr => ?_, ?_⟩
      · simp only [List.map_cons]
        rw [ihs2 herr]
      · intro idx c sid d hok j hj
        cases j with
        | zero => rfl
        | succ j2 =>
          simp only [List.getD_cons_succ]
          exact ihs3 idx c sid d hok j2 (by omega)
    · refine ⟨fun hany => by simp at hany, fun herr => by simp at herr, ?_⟩
      intro idx c sid d hok
      simp at hok
    · refine ⟨fun hany => by simp at hany, fun herr => by simp at herr, ?_⟩
      intro idx c sid d hok j hj
      simp only [Except.ok.injEq] at hok
      obtain ⟨hidx, -⟩ := hok
      cases j with
      | zero => omega
      | succ j2 => simp only [List.getD_cons_succ]
    · obtain ⟨ihs1, ihs2, ihs3⟩ := ih ((circuit.ctrXor ks hop.kb p).1.take 5 ++
        [0, 0, 0, 0] ++ (circuit.ctrXor ks hop.kb p).1.drop 9) (i + 1)
      refine ⟨fun hany => ihs1 hany, fun herr => ?_, ?_⟩
      · simp only [List.map_cons]
        rw [ihs2 herr]
      · intro idx c sid d hok j hj
        cases j with
        | zero => rfl
        | succ j2 =>
          simp only [List.getD_cons_succ]
          exact ihs3 idx c sid d hok j2 (by omega)

/-- C2: on a circuit with at least one hop, if no hop both shows a zero
"recognized" field and a matching 4-byte running-backward-digest, inbound
decryption fails with the unrecognized-cell error and leaves every hop's
running backward digest exactly as before the call; and on success every
hop other than the recognizing one keeps its backward digest, so a
coincidental zero "recognized" with a digest mismatch never corrupts the
running hash. -/
theorem decrypt_unrecognized_restores_digests (ks : Nat → Nat → Nat)
    (sha : List Nat → List Nat) (incoming : List Nat) (st : circuit.CircuitSt)
    (hne : st.hops ≠ []) :
    (circuit.anyRecognizes ks sha st.hops (circuit.padPayload incoming) = false →
       (circuit.decryptRelayLocked ks sha incoming st).1 =
         .error "relay cell not recognized at any hop") ∧
    ((circuit.decryptRelayLocked ks sha incoming st).1 =
         .error "relay cell not recognized at any hop" →
       (circuit.decryptRelayLocked ks sha incoming st).2.hops.map circuit.Hop.db =
         st.hops.map circuit.Hop.db) ∧
    (∀ idx c sid d,
       (circuit.decryptRelayLocked ks sha incoming st).1 = .ok (idx, c, sid, d) →
       ∀ j, j ≠ idx →
         ((circuit.decryptRelayLocked ks sha incoming st).2.hops.getD j default).db =
           (st.hops.getD j default).db) := by
  have h := decryptLoop_spec ks sha st.hops (circuit.padPayload incoming) 0
  unfold circuit.decryptRelayLocked
  rw [if_neg hne]
  exact ⟨h.1, h.2.1, fun idx c sid d hok j hj =>
    h.2.2 idx c sid d hok j (by omega)⟩

/-- A one-hop circuit whose backward digest has seen nothing yet. -/
def unrecCircuit : circuit.CircuitSt :=
  { id := 5, hops := [{ kf := ⟨0, 0⟩, kb := ⟨1, 0⟩, df := ⟨[]⟩, db := ⟨[]⟩ }],
    relayEarlySent := 0, written := [] }

/-- C2 witness: an all-zeros incoming payload has a coincidentally zero
"recognized" field but a mismatching digest at the only hop, so no hop
recognizes it and decryption reports the unrecognized-cell error. -/
theorem decrypt_unrecognized_witness :
    circuit.anyRecognizes (fun _ _ => 0) (fun _ => [1, 2, 3, 4])
      unrecCircuit.hops (circuit.padPayload []) = false ∧
    (circuit.decryptRelayLocked (fun _ _ => 0) (fun _ => [1, 2, 3, 4])
        [] unrecCircuit).1 = .error "relay cell not recognized at any hop" := by
  have h := decrypt_unrecognized_restores_digests (fun _ _ => 0)
    (fun _ => [1, 2, 3, 4]) [] unrecCircuit (by simp [unrecCircuit])
  have hany : circuit.anyRecognizes (fun _ _ => 0) (fun _ => [1, 2, 3, 4])
      unrecCircuit.hops (circuit.padPayload []) = false := by
    set_option maxRecDepth 4000 in rfl
  exact ⟨hany, h.1 hany⟩

end TorGo
